import Mathlib

/-!
Shallow embedding of the bean-bucks-api service (src/main.rs).

The three MySQL tables (`user`, `wager`, `user_wager`) are modelled as lists
of rows inside a `Db` record; each axum handler becomes a pure function from
a `Db` (plus its JSON payload) to the updated `Db` and the response.  Rust's
`i32` values are modelled as `Int` with explicit 32-bit wrapping (`wrap32`)
at every arithmetic step that can overflow, `u64` values as `Nat`, and the
narrowing casts of the source (`u64 as i32`, `usize as i32`, `i32 as u8`)
are modelled explicitly (`toI32`, `% 256`).  A `fetch_one` that finds no row
makes the handler panic in Rust; such handlers return `Option`, with `none`
standing for the panic.
-/

/-- Row of the `user` table: `id` and `bucks` are `i32` columns, `discord_id`
is a `u64`. -/
structure User where
  id : Int
  discord_id : Nat
  user_name : String
  bucks : Int
deriving DecidableEq, Repr

/-- Row of the `wager` table (`id`, `amount` are `i32`). -/
structure Wager where
  id : Int
  amount : Int
  closed : Bool
deriving DecidableEq, Repr

/-- Row of the `user_wager` join table. -/
structure UserWager where
  id : Int
  wager_id : Int
  user_id : Int
deriving DecidableEq, Repr

/-- The persistent state: the three tables. -/
structure Db where
  users : List User
  wagers : List Wager
  userWagers : List UserWager
deriving DecidableEq, Repr

/-- Reinterpretation of a 64-bit (or pointer-sized) unsigned value as a
signed 32-bit integer: Rust's `as i32` cast (truncate to the low 32 bits,
two's complement). -/
def toI32 (n : Nat) : Int :=
  let m : Nat := n % 2 ^ 32
  if m < 2 ^ 31 then (m : Int) else (m : Int) - 2 ^ 32

/-- Two's-complement wrapping of a mathematical integer into the `i32`
range, modelling Rust release-mode overflow semantics for `i32` arithmetic. -/
def wrap32 (x : Int) : Int := (x + 2 ^ 31) % 2 ^ 32 - 2 ^ 31

/-- Payload of `PATCH /wager` (struct `CloseWagerPayload`). -/
structure CloseWagerPayload where
  wager_id : Int
  winning_user_discord_ids : List Nat
  losing_user_discord_ids : List Nat
deriving DecidableEq, Repr

/-- Response body of `close_wager` (struct `SucessfullCloseWager`), paired
with the HTTP status code. -/
structure CloseResult where
  status : Nat
  winners : List User
  losers : List User
  wager : Wager
deriving DecidableEq, Repr

/-- The participant ids `close_wager` works with: the `user_id` of every
`user_wager` row of the wager, narrowed through `user_id as u8` (the low
8 bits, i.e. `% 256`) exactly as the source does. -/
def participantIds (db : Db) (wid : Int) : List Int :=
  (db.userWagers.filter (fun uw => uw.wager_id == wid)).map
    (fun uw => uw.user_id % 256)

/-- The fetch loop of `close_wager`: each id is looked up with `fetch_one`
(`SELECT * FROM user WHERE id = ?`); a missing row is a panic (`none`). -/
def resolveUsers (db : Db) : List Int → Option (List User)
  | [] => some []
  | uid :: rest =>
    match db.users.find? (fun u => u.id == uid) with
    | none => none
    | some u =>
      match resolveUsers db rest with
      | none => none
      | some us => some (u :: us)

/-- The winner/loser partition loop of `close_wager`: a user whose
`discord_id` is in the winning list is pushed to the winners, otherwise a
user whose `discord_id` is in the losing list is pushed to the losers,
otherwise the user is ignored. -/
def partitionUsers (win lose : List Nat) : List User → List User × List User
  | [] => ([], [])
  | u :: rest =>
    let p := partitionUsers win lose rest
    if win.contains u.discord_id then (u :: p.1, p.2)
    else if lose.contains u.discord_id then (p.1, u :: p.2)
    else p

/-- `UPDATE user SET bucks = ? WHERE id = ?`. -/
def updateBucks (users : List User) (uid newBucks : Int) : List User :=
  users.map (fun u => if u.id == uid then { u with bucks := newBucks } else u)

/-- The payout computation of `close_wager`: `payout` starts at 0 and, when
there is at least one winner, becomes
`wager.amount * (losing.len() as i32) / (winning.len() as i32)` in `i32`
arithmetic (wrapping multiplication, truncating division). -/
def payoutOf (amount : Int) (wn ln : Nat) : Int :=
  if wn > 0 then Int.tdiv (wrap32 (amount * toI32 ln)) (toI32 wn) else 0

/-- The winners loop of `close_wager`: each winner's row is set to the
fetched `bucks` plus the payout. -/
def applyWinners (users : List User) (ws : List User) (pay : Int) : List User :=
  ws.foldl (fun acc u => updateBucks acc u.id (wrap32 (u.bucks + pay))) users

/-- The losers loop of `close_wager`: each loser's row is set to the fetched
`bucks` minus the stake, floored at zero. -/
def applyLosers (users : List User) (ls : List User) (amount : Int) : List User :=
  ls.foldl
    (fun acc u =>
      let nb := wrap32 (u.bucks - amount)
      updateBucks acc u.id (if nb < 0 then 0 else nb))
    users

/-- Handler of `PATCH /wager` (`close_wager` in the source): look up the
wager (417 if absent or already closed, with no mutation), fetch and resolve
the participants, partition them, pay winners, charge losers, mark the wager
closed, and answer 200 with the fetched winner/loser records and the fetched
wager. `none` models a panic in a `fetch_one`. -/
def close_wager (db : Db) (p : CloseWagerPayload) : Option (Db × CloseResult) :=
  match db.wagers.find? (fun w => w.id == p.wager_id) with
  | none =>
    some (db, { status := 417, winners := [], losers := [],
                wager := { id := 0, amount := 0, closed := false } })
  | some wager =>
    if wager.closed then
      some (db, { status := 417, winners := [], losers := [], wager := wager })
    else
      match resolveUsers db (participantIds db p.wager_id) with
      | none => none
      | some users =>
        let part := partitionUsers p.winning_user_discord_ids
          p.losing_user_discord_ids users
        let pay := payoutOf wager.amount part.1.length part.2.length
        let users1 := applyWinners db.users part.1 pay
        let users2 := applyLosers users1 part.2 wager.amount
        let wagers2 := db.wagers.map
          (fun w => if w.id == p.wager_id then { w with closed := true } else w)
        some ({ db with users := users2, wagers := wagers2 },
              { status := 200, winners := part.1, losers := part.2,
                wager := wager })

/-- Payload of `POST /wager` (struct `WagerInput`). -/
structure WagerInput where
  amount : Int
deriving DecidableEq, Repr

/-- Handler of `POST /wager` (`create_wager`): insert a row with the given
amount; `assigned` is the auto-increment id the database reports through
`last_insert_id()` (a `u64`). The response echoes `last_insert_id() as i32`,
the input amount, and `closed = false`. -/
def create_wager (db : Db) (assigned : Nat) (p : WagerInput) :
    Db × Nat × Wager :=
  let w : Wager := { id := toI32 assigned, amount := p.amount, closed := false }
  ({ db with wagers := db.wagers ++ [w] }, 200, w)

/-- Payload of `POST /user/wager` (struct `UserForWagerPayload`). -/
structure UserForWagerPayload where
  discord_id : Nat
  user_name : String
  wager_id : Int
deriving DecidableEq, Repr

/-- First step of `add_user_to_wager`: resolve the discord id to a user id,
creating the user with 500 bucks when absent (`newUserId` is the id the
database assigns to the inserted row, seen by the code as
`last_insert_id() as i32`). -/
def resolveUser (db : Db) (newUserId : Int) (p : UserForWagerPayload) :
    Db × Int :=
  match db.users.find? (fun u => u.discord_id == p.discord_id) with
  | some u => (db, u.id)
  | none =>
    ({ db with users := db.users ++
        [{ id := newUserId, discord_id := p.discord_id,
           user_name := p.user_name, bucks := 500 }] },
     newUserId)

/-- Handler of `POST /user/wager` (`add_user_to_wager`): resolve or create
the user; if a `user_wager` row for (user, wager) exists answer 200 with no
further effect; otherwise fetch user and wager (`fetch_one`, panic = `none`),
answer 400 when `bucks < amount`, else insert the `user_wager` row
(`newUWId` is the id assigned to it) and answer 200. -/
def add_user_to_wager (db : Db) (newUserId newUWId : Int)
    (p : UserForWagerPayload) : Option (Db × Nat) :=
  let r := resolveUser db newUserId p
  let db1 := r.1
  let user_id := r.2
  if (db1.userWagers.find?
      (fun uw => uw.user_id == user_id && uw.wager_id == p.wager_id)).isSome
  then
    some (db1, 200)
  else
    match db1.users.find? (fun u => u.id == user_id) with
    | none => none
    | some user =>
      match db1.wagers.find? (fun w => w.id == p.wager_id) with
      | none => none
      | some wager =>
        if user.bucks < wager.amount then
          some (db1, 400)
        else
          some ({ db1 with userWagers := db1.userWagers ++
                    [{ id := newUWId, wager_id := p.wager_id,
                       user_id := user_id }] },
                200)

/-- Payload of `DELETE /user/wager` (struct `RemoveUserWagerPayload`). -/
structure RemoveUserWagerPayload where
  discord_id : Nat
  wager_id : Int
deriving DecidableEq, Repr

/-- Handler of `DELETE /user/wager` (`remove_user_from_wager`): the source
binds the payload's `discord_id` into `WHERE user_id = ?`, so the lookup
compares the 64-bit discord id against the `user_id` column; on a match that
row is deleted by its `id` and the answer is 200, otherwise 400. -/
def remove_user_from_wager (db : Db) (p : RemoveUserWagerPayload) :
    Db × Nat :=
  match db.userWagers.find?
      (fun uw => uw.user_id == (p.discord_id : Int) &&
                 uw.wager_id == p.wager_id) with
  | some uw =>
    ({ db with userWagers := db.userWagers.filter (fun x => !(x.id == uw.id)) },
     200)
  | none => (db, 400)

/-- A database whose only wager is already closed, with one joined user. -/
def dbClosed : Db :=
  { users := [⟨1, 10, "a", 500⟩],
    wagers := [⟨1, 50, true⟩],
    userWagers := [⟨1, 1, 1⟩] }

/-- Two users, one open wager of stake 50, both joined: the spec's
round-trip scenario. -/
def dbRound : Db :=
  { users := [⟨1, 10, "a", 500⟩, ⟨2, 20, "b", 500⟩],
    wagers := [⟨1, 50, false⟩],
    userWagers := [⟨1, 1, 1⟩, ⟨2, 1, 2⟩] }

/-- Users with ids 0 and 256 and a participation whose `user_id` is 256:
the `as u8` narrowing maps it to 0. -/
def dbTrunc : Db :=
  { users := [⟨0, 10, "a", 500⟩, ⟨256, 20, "b", 500⟩],
    wagers := [⟨1, 50, false⟩],
    userWagers := [⟨1, 1, 256⟩] }

/-- Three users joined to one open wager, used to exercise the partition:
discord 10 in both lists, discord 20 only losing, discord 30 in neither. -/
def dbPart : Db :=
  { users := [⟨1, 10, "a", 500⟩, ⟨2, 20, "b", 500⟩, ⟨3, 30, "c", 500⟩],
    wagers := [⟨1, 50, false⟩],
    userWagers := [⟨1, 1, 1⟩, ⟨2, 1, 2⟩, ⟨3, 1, 3⟩] }

/-- One user (internal id 1, discord id 42) joined to wager 7. -/
def dbMismatch : Db :=
  { users := [⟨1, 42, "a", 500⟩],
    wagers := [⟨7, 50, false⟩],
    userWagers := [⟨5, 7, 1⟩] }

/-- A rich user and a poor user, and one open wager of stake 50 nobody has
joined yet. -/
def dbJoin : Db :=
  { users := [⟨1, 10, "a", 500⟩, ⟨2, 20, "b", 30⟩],
    wagers := [⟨1, 50, false⟩],
    userWagers := [] }

/-! ## Arithmetic helper lemmas -/

/-- `wrap32` is the identity on values already in the `i32` range. -/
theorem wrap32_eq_self {x : Int} (h1 : -2 ^ 31 ≤ x) (h2 : x < 2 ^ 31) :
    wrap32 x = x := by
  unfold wrap32
  omega

/-- `toI32` is the identity on values below `2 ^ 31`. -/
theorem toI32_eq_self {n : Nat} (h : n < 2 ^ 31) : toI32 n = (n : Int) := by
  simp only [toI32]
  split_ifs with hm <;> omega

/-- A branch on negativity is a `max` with zero. -/
theorem ite_lt_zero_eq_max (x : Int) : (if x < 0 then 0 else x) = max 0 x := by
  split_ifs with h
  · exact (max_eq_left h.le).symm
  · exact (max_eq_right (not_lt.mp h)).symm

/-- The payout formula reduces to exact integer division when nothing wraps:
nonnegative stake, list lengths below `2 ^ 31`, and a product below
`2 ^ 31`. -/
theorem payoutOf_eq_div {S : Int} {wn ln : Nat} (hS0 : 0 ≤ S)
    (hwn : wn < 2 ^ 31) (hln : ln < 2 ^ 31) (hSL : S * (ln : Int) < 2 ^ 31)
    (hpos : 0 < wn) :
    payoutOf S wn ln = S * (ln : Int) / (wn : Int) := by
  have hln' : (0 : Int) ≤ S * (ln : Int) :=
    mul_nonneg hS0 (Int.natCast_nonneg ln)
  rw [payoutOf, if_pos hpos, toI32_eq_self hln, toI32_eq_self hwn,
    wrap32_eq_self (by omega) hSL]
  exact Int.tdiv_eq_ediv hln' (Int.natCast_nonneg wn)

/-- The payout is never negative under the same no-wrap conditions. -/
theorem payoutOf_nonneg {S : Int} {wn ln : Nat} (hS0 : 0 ≤ S)
    (hwn : wn < 2 ^ 31) (hln : ln < 2 ^ 31) (hSL : S * (ln : Int) < 2 ^ 31) :
    0 ≤ payoutOf S wn ln := by
  rcases Nat.eq_zero_or_pos wn with h0 | hpos
  · simp [payoutOf, h0]
  · rw [payoutOf_eq_div hS0 hwn hln hSL hpos]
    exact Int.ediv_nonneg (mul_nonneg hS0 (Int.natCast_nonneg ln))
      (Int.natCast_nonneg wn)

/-! ## Lookup and update lemmas -/

/-- Unfolding of `updateBucks` on a cons cell. -/
theorem updateBucks_cons (x : User) (xs : List User) (i b : Int) :
    updateBucks (x :: xs) i b =
      (if x.id == i then { x with bucks := b } else x) :: updateBucks xs i b :=
  rfl

/-- After `updateBucks users i b`, looking up id `i` yields the previously
found row with its `bucks` replaced by `b`. -/
theorem find?_updateBucks_self : ∀ (us : List User) (i b : Int) (u : User),
    us.find? (fun x => x.id == i) = some u →
    (updateBucks us i b).find? (fun x => x.id == i) =
      some { u with bucks := b }
  | [], _, _, _, h => by simp at h
  | x :: xs, i, b, u, h => by
    rw [updateBucks_cons]
    by_cases hx : (x.id == i) = true
    · rw [List.find?_cons_of_pos (p := fun y : User => y.id == i) _ hx] at h
      injection h with h
      subst h
      rw [if_pos hx]
      exact List.find?_cons_of_pos (p := fun y : User => y.id == i) _ hx
    · rw [List.find?_cons_of_neg (p := fun y : User => y.id == i) _ hx] at h
      rw [if_neg hx]
      rw [List.find?_cons_of_neg (p := fun y : User => y.id == i) _ hx]
      exact find?_updateBucks_self xs i b u h

/-- `updateBucks` on id `i` leaves lookups of any other id unchanged. -/
theorem find?_updateBucks_other : ∀ (us : List User) (i j b : Int),
    j ≠ i →
    (updateBucks us i b).find? (fun x => x.id == j) =
      us.find? (fun x => x.id == j)
  | [], _, _, _, _ => rfl
  | x :: xs, i, j, b, hij => by
    rw [updateBucks_cons]
    by_cases hxi : (x.id == i) = true
    · have hxj : ¬ (x.id == j) = true := by
        intro hxj
        exact hij ((eq_of_beq hxj).symm.trans (eq_of_beq hxi))
      rw [if_pos hxi]
      rw [List.find?_cons_of_neg (p := fun y : User => y.id == j)
          (a := { x with bucks := b }) _ hxj,
        List.find?_cons_of_neg (p := fun y : User => y.id == j) _ hxj]
      exact find?_updateBucks_other xs i j b hij
    · rw [if_neg hxi]
      by_cases hxj : (x.id == j) = true
      · rw [List.find?_cons_of_pos (p := fun y : User => y.id == j) _ hxj,
          List.find?_cons_of_pos (p := fun y : User => y.id == j) _ hxj]
      · rw [List.find?_cons_of_neg (p := fun y : User => y.id == j) _ hxj,
          List.find?_cons_of_neg (p := fun y : User => y.id == j) _ hxj]
        exact find?_updateBucks_other xs i j b hij

/-- Unfolding of the winners loop on a cons cell. -/
theorem applyWinners_cons (us : List User) (w : User) (ws : List User)
    (pay : Int) :
    applyWinners us (w :: ws) pay =
      applyWinners (updateBucks us w.id (wrap32 (w.bucks + pay))) ws pay :=
  rfl

/-- Unfolding of the losers loop on a cons cell. -/
theorem applyLosers_cons (us : List User) (l : User) (ls : List User)
    (amount : Int) :
    applyLosers us (l :: ls) amount =
      applyLosers
        (updateBucks us l.id
          (if wrap32 (l.bucks - amount) < 0 then 0 else wrap32 (l.bucks - amount)))
        ls amount :=
  rfl

/-- The winners loop does not touch rows whose id is not a winner id. -/
theorem find?_applyWinners_other : ∀ (ws us : List User) (pay j : Int),
    j ∉ ws.map User.id →
    (applyWinners us ws pay).find? (fun x => x.id == j) =
      us.find? (fun x => x.id == j)
  | [], _, _, _, _ => rfl
  | w :: ws, us, pay, j, hj => by
    simp only [List.map_cons, List.mem_cons, not_or] at hj
    rw [applyWinners_cons, find?_applyWinners_other ws _ pay j hj.2]
    exact find?_updateBucks_other us w.id j _ hj.1

/-- The losers loop does not touch rows whose id is not a loser id. -/
theorem find?_applyLosers_other : ∀ (ls us : List User) (amount j : Int),
    j ∉ ls.map User.id →
    (applyLosers us ls amount).find? (fun x => x.id == j) =
      us.find? (fun x => x.id == j)
  | [], _, _, _, _ => rfl
  | l :: ls, us, amount, j, hj => by
    simp only [List.map_cons, List.mem_cons, not_or] at hj
    rw [applyLosers_cons, find?_applyLosers_other ls _ amount j hj.2]
    exact find?_updateBucks_other us l.id j _ hj.1

/-- Row of a winner after the winners loop, when winner ids are distinct. -/
theorem find?_applyWinners_mem : ∀ (ws us : List User) (pay : Int) (u : User),
    (ws.map User.id).Nodup → u ∈ ws →
    us.find? (fun x => x.id == u.id) = some u →
    (applyWinners us ws pay).find? (fun x => x.id == u.id) =
      some { u with bucks := wrap32 (u.bucks + pay) }
  | [], _, _, _, _, hu, _ => absurd hu (List.not_mem_nil _)
  | w :: ws, us, pay, u, hnd, hu, hfind => by
    simp only [List.map_cons, List.nodup_cons] at hnd
    rw [applyWinners_cons]
    rcases List.mem_cons.mp hu with rfl | hu'
    · rw [find?_applyWinners_other ws _ pay u.id hnd.1]
      exact find?_updateBucks_self us u.id _ u hfind
    · have hne : u.id ≠ w.id := by
        intro h
        exact hnd.1 (h ▸ List.mem_map_of_mem User.id hu')
      refine find?_applyWinners_mem ws _ pay u hnd.2 hu' ?_
      rw [find?_updateBucks_other us w.id u.id _ hne]
      exact hfind

/-- Row of a loser after the losers loop, when loser ids are distinct. -/
theorem find?_applyLosers_mem : ∀ (ls us : List User) (amount : Int) (u : User),
    (ls.map User.id).Nodup → u ∈ ls →
    us.find? (fun x => x.id == u.id) = some u →
    (applyLosers us ls amount).find? (fun x => x.id == u.id) =
      some { u with bucks :=
        (if wrap32 (u.bucks - amount) < 0 then 0 else wrap32 (u.bucks - amount)) }
  | [], _, _, _, _, hu, _ => absurd hu (List.not_mem_nil _)
  | l :: ls, us, amount, u, hnd, hu, hfind => by
    simp only [List.map_cons, List.nodup_cons] at hnd
    rw [applyLosers_cons]
    rcases List.mem_cons.mp hu with rfl | hu'
    · rw [find?_applyLosers_other ls _ amount u.id hnd.1]
      exact find?_updateBucks_self us u.id _ u hfind
    · have hne : u.id ≠ l.id := by
        intro h
        exact hnd.1 (h ▸ List.mem_map_of_mem User.id hu')
      refine find?_applyLosers_mem ls _ amount u hnd.2 hu' ?_
      rw [find?_updateBucks_other us l.id u.id _ hne]
      exact hfind

/-- Every user produced by the fetch loop is the row `find?` returns for its
own id in the user table. -/
theorem resolveUsers_mem (db : Db) : ∀ (ids : List Int) (users : List User)
    (u : User), resolveUsers db ids = some users → u ∈ users →
    db.users.find? (fun x => x.id == u.id) = some u
  | [], users, u, hres, hu => by
    simp only [resolveUsers, Option.some.injEq] at hres
    subst hres
    exact absurd hu (List.not_mem_nil _)
  | uid :: rest, users, u, hres, hu => by
    simp only [resolveUsers] at hres
    rcases hv : db.users.find? (fun x => x.id == uid) with _ | v
    · rw [hv] at hres
      exact absurd hres (by simp)
    · rw [hv] at hres
      rcases hrest : resolveUsers db rest with _ | us
      · rw [hrest] at hres
        exact absurd hres (by simp)
      · rw [hrest] at hres
        simp only [Option.some.injEq] at hres
        subst hres
        rcases List.mem_cons.mp hu with rfl | hu'
        · have hid : u.id = uid := by simpa using List.find?_some hv
          rw [hid]
          exact hv
        · exact resolveUsers_mem db rest us u hrest hu'

/-! ## Partition lemmas -/

/-- Unfolding of the partition loop on a cons cell. -/
theorem partitionUsers_cons (win lose : List Nat) (u : User)
    (rest : List User) :
    partitionUsers win lose (u :: rest) =
      (if win.contains u.discord_id then
        (u :: (partitionUsers win lose rest).1, (partitionUsers win lose rest).2)
      else if lose.contains u.discord_id then
        ((partitionUsers win lose rest).1, u :: (partitionUsers win lose rest).2)
      else partitionUsers win lose rest) :=
  rfl

/-- Winners come from the participant list. -/
theorem mem_of_mem_partition_fst : ∀ (win lose : List Nat) (xs : List User)
    (u : User), u ∈ (partitionUsers win lose xs).1 → u ∈ xs
  | _, _, [], u, h => absurd h (List.not_mem_nil u)
  | win, lose, x :: rest, u, h => by
    rw [partitionUsers_cons] at h
    split_ifs at h
    · rcases List.mem_cons.mp h with rfl | h'
      · exact List.mem_cons_self _ _
      · exact List.mem_cons_of_mem x (mem_of_mem_partition_fst win lose rest u h')
    · exact List.mem_cons_of_mem x (mem_of_mem_partition_fst win lose rest u h)
    · exact List.mem_cons_of_mem x (mem_of_mem_partition_fst win lose rest u h)

/-- Losers come from the participant list. -/
theorem mem_of_mem_partition_snd : ∀ (win lose : List Nat) (xs : List User)
    (u : User), u ∈ (partitionUsers win lose xs).2 → u ∈ xs
  | _, _, [], u, h => absurd h (List.not_mem_nil u)
  | win, lose, x :: rest, u, h => by
    rw [partitionUsers_cons] at h
    split_ifs at h
    · exact List.mem_cons_of_mem x (mem_of_mem_partition_snd win lose rest u h)
    · rcases List.mem_cons.mp h with rfl | h'
      · exact List.mem_cons_self _ _
      · exact List.mem_cons_of_mem x (mem_of_mem_partition_snd win lose rest u h')
    · exact List.mem_cons_of_mem x (mem_of_mem_partition_snd win lose rest u h)

/-- Every user placed among the winners has its discord id in the winning
list. -/
theorem discord_of_mem_partition_fst : ∀ (win lose : List Nat) (xs : List User)
    (u : User), u ∈ (partitionUsers win lose xs).1 → u.discord_id ∈ win
  | _, _, [], u, h => absurd h (List.not_mem_nil u)
  | win, lose, x :: rest, u, h => by
    rw [partitionUsers_cons] at h
    split_ifs at h with h1 h2
    · rcases List.mem_cons.mp h with rfl | h'
      · simpa using h1
      · exact discord_of_mem_partition_fst win lose rest u h'
    · exact discord_of_mem_partition_fst win lose rest u h
    · exact discord_of_mem_partition_fst win lose rest u h

/-- Every user placed among the losers has its discord id in the losing list
and not in the winning list. -/
theorem discord_of_mem_partition_snd : ∀ (win lose : List Nat) (xs : List User)
    (u : User), u ∈ (partitionUsers win lose xs).2 →
      u.discord_id ∈ lose ∧ u.discord_id ∉ win
  | _, _, [], u, h => absurd h (List.not_mem_nil u)
  | win, lose, x :: rest, u, h => by
    rw [partitionUsers_cons] at h
    split_ifs at h with h1 h2
    · exact discord_of_mem_partition_snd win lose rest u h
    · rcases List.mem_cons.mp h with rfl | h'
      · exact ⟨by simpa using h2, by simpa using h1⟩
      · exact discord_of_mem_partition_snd win lose rest u h'
    · exact discord_of_mem_partition_snd win lose rest u h

/-- A participant whose discord id is in the winning list lands among the
winners, even when it is also in the losing list. -/
theorem mem_partition_fst_of_mem : ∀ (win lose : List Nat) (xs : List User)
    (u : User), u ∈ xs → u.discord_id ∈ win →
      u ∈ (partitionUsers win lose xs).1
  | _, _, [], u, h, _ => absurd h (List.not_mem_nil u)
  | win, lose, x :: rest, u, h, hd => by
    rw [partitionUsers_cons]
    rcases List.mem_cons.mp h with rfl | h'
    · rw [if_pos (by simpa using hd)]
      exact List.mem_cons_self _ _
    · have ih := mem_partition_fst_of_mem win lose rest u h' hd
      split_ifs
      · exact List.mem_cons_of_mem x ih
      · exact ih
      · exact ih

/-- The two partition classes cannot exceed the participant count. -/
theorem partition_length_le : ∀ (win lose : List Nat) (xs : List User),
    (partitionUsers win lose xs).1.length +
      (partitionUsers win lose xs).2.length ≤ xs.length
  | _, _, [] => Nat.le_refl 0
  | win, lose, x :: rest => by
    rw [partitionUsers_cons]
    have ih := partition_length_le win lose rest
    split_ifs <;> simp only [List.length_cons] <;> omega

/-- With pairwise distinct participant ids, the winner ids and the loser ids
are each distinct and the two classes share no id. -/
theorem partition_ids_nodup : ∀ (win lose : List Nat) (xs : List User),
    (xs.map User.id).Nodup →
      ((partitionUsers win lose xs).1.map User.id).Nodup ∧
      ((partitionUsers win lose xs).2.map User.id).Nodup ∧
      ∀ i, i ∈ (partitionUsers win lose xs).1.map User.id →
        i ∉ (partitionUsers win lose xs).2.map User.id
  | _, _, [], _ =>
    ⟨List.nodup_nil, List.nodup_nil, by simp [partitionUsers]⟩
  | win, lose, x :: rest, hnd => by
    simp only [List.map_cons, List.nodup_cons] at hnd
    obtain ⟨hx, hrest⟩ := hnd
    obtain ⟨ih1, ih2, ih3⟩ := partition_ids_nodup win lose rest hrest
    have hm1 : ∀ i, i ∈ (partitionUsers win lose rest).1.map User.id →
        i ∈ rest.map User.id := by
      intro i hi
      rcases List.mem_map.mp hi with ⟨v, hv, rfl⟩
      exact List.mem_map_of_mem User.id (mem_of_mem_partition_fst win lose rest v hv)
    have hm2 : ∀ i, i ∈ (partitionUsers win lose rest).2.map User.id →
        i ∈ rest.map User.id := by
      intro i hi
      rcases List.mem_map.mp hi with ⟨v, hv, rfl⟩
      exact List.mem_map_of_mem User.id (mem_of_mem_partition_snd win lose rest v hv)
    rw [partitionUsers_cons]
    split_ifs
    · refine ⟨?_, ih2, ?_⟩
      · simp only [List.map_cons, List.nodup_cons]
        exact ⟨fun h => hx (hm1 _ h), ih1⟩
      · intro i hi
        simp only [List.map_cons, List.mem_cons] at hi
        rcases hi with rfl | hi
        · exact fun h => hx (hm2 _ h)
        · exact ih3 i hi
    · refine ⟨ih1, ?_, ?_⟩
      · simp only [List.map_cons, List.nodup_cons]
        exact ⟨fun h => hx (hm2 _ h), ih2⟩
      · intro i hi
        simp only [List.map_cons, List.mem_cons]
        push_neg
        exact ⟨fun h => hx ((h ▸ hm1 i hi : x.id ∈ rest.map User.id)), ih3 i hi⟩
    · exact ⟨ih1, ih2, ih3⟩

/-! ## Behaviour of the handlers -/

/-- `resolveUser` never touches the `user_wager` or `wager` tables. -/
theorem resolveUser_tables (db : Db) (newUserId : Int)
    (p : UserForWagerPayload) :
    (resolveUser db newUserId p).1.userWagers = db.userWagers ∧
    (resolveUser db newUserId p).1.wagers = db.wagers := by
  unfold resolveUser
  split <;> exact ⟨rfl, rfl⟩

/-- Shape of a successful settlement: when the wager exists, is open, and
every participant resolves, `close_wager` updates the user table through the
winner and loser loops, flips the wager's `closed` flag, and answers 200
with the partition of the fetched users and the fetched wager record. -/
theorem close_wager_success (db : Db) (p : CloseWagerPayload) (wager : Wager)
    (users : List User)
    (hw : db.wagers.find? (fun w => w.id == p.wager_id) = some wager)
    (hopen : wager.closed = false)
    (hres : resolveUsers db (participantIds db p.wager_id) = some users) :
    close_wager db p = some
      ({ db with
          users := applyLosers
            (applyWinners db.users
              (partitionUsers p.winning_user_discord_ids
                p.losing_user_discord_ids users).1
              (payoutOf wager.amount
                (partitionUsers p.winning_user_discord_ids
                  p.losing_user_discord_ids users).1.length
                (partitionUsers p.winning_user_discord_ids
                  p.losing_user_discord_ids users).2.length))
            (partitionUsers p.winning_user_discord_ids
              p.losing_user_discord_ids users).2 wager.amount,
          wagers := db.wagers.map
            (fun w => if w.id == p.wager_id then { w with closed := true } else w) },
       { status := 200,
         winners := (partitionUsers p.winning_user_discord_ids
           p.losing_user_discord_ids users).1,
         losers := (partitionUsers p.winning_user_discord_ids
           p.losing_user_discord_ids users).2,
         wager := wager }) := by
  simp only [close_wager, hw, hopen, hres, Bool.false_eq_true, if_false]

/-! ## The claims -/

/-- Claim C1: for every wager whose `closed` flag is already true, the
close-wager operation fails with status 417 and leaves all state unchanged:
the returned database is the input database, so no user balance, no `closed`
flag and no stake is modified; hence `closed` transitions false to true at
most once. -/
theorem close_wager_already_closed (db : Db) (p : CloseWagerPayload)
    (wager : Wager)
    (hw : db.wagers.find? (fun w => w.id == p.wager_id) = some wager)
    (hclosed : wager.closed = true) :
    close_wager db p =
      some (db, { status := 417, winners := [], losers := [], wager := wager }) := by
  simp only [close_wager, hw, hclosed, if_true]

/-- Witness for C1: a concrete already-closed wager is rejected with 417 and
the database is returned unchanged. -/
theorem close_wager_already_closed_witness :
    close_wager dbClosed ⟨1, [10], []⟩ =
      some (dbClosed,
        { status := 417, winners := [], losers := [], wager := ⟨1, 50, true⟩ }) :=
  close_wager_already_closed dbClosed ⟨1, [10], []⟩ ⟨1, 50, true⟩ (by decide)
    rfl

/-- Claim C3: the code narrows each Participation's `user_id` through `as u8`
before resolving it, so a participation whose `user_id` is 256 is resolved to
the user with id 0: settling wager 1 of `dbTrunc` (sole participation has
`user_id = 256`, losing list names user 0's discord id 10) charges user 0 and
leaves user 256 — the actual participant — untouched. -/
theorem close_wager_truncates_participant_ids :
    dbTrunc.userWagers = [⟨1, 1, 256⟩] ∧
    participantIds dbTrunc 1 = [0] ∧
    resolveUsers dbTrunc (participantIds dbTrunc 1) = some [⟨0, 10, "a", 500⟩] ∧
    close_wager dbTrunc ⟨1, [], [10]⟩ =
      some (⟨[⟨0, 10, "a", 450⟩, ⟨256, 20, "b", 500⟩], [⟨1, 50, true⟩],
             [⟨1, 1, 256⟩]⟩,
            { status := 200, winners := [], losers := [⟨0, 10, "a", 500⟩],
              wager := ⟨1, 50, false⟩ }) := by
  decide

/-- Claim C7: the removal handler binds the payload's 64-bit discord id into
`WHERE user_id = ?`, so in `dbMismatch` — where the user with external id 42
has internal id 1 and holds the participation ⟨5, 7, 1⟩ in wager 7 — the
request (externalId 42, wagerId 7) finds nothing, answers 400 and deletes
nothing, although a Participation for that user and wager exists. -/
theorem remove_user_from_wager_id_confusion :
    dbMismatch.users.find? (fun u => u.discord_id == 42) =
      some ⟨1, 42, "a", 500⟩ ∧
    dbMismatch.userWagers.find?
      (fun uw => uw.user_id == 1 && uw.wager_id == 7) = some ⟨5, 7, 1⟩ ∧
    remove_user_from_wager dbMismatch ⟨42, 7⟩ = (dbMismatch, 400) := by
  decide

/-- Claim C10: the create-wager response always carries status 200, echoes
the input stake, reports `closed = false`, and its id is the 64-bit
persistence-assigned id reduced modulo `2 ^ 32` and reinterpreted as a
signed 32-bit integer, so it equals the assigned id exactly when that id is
below `2 ^ 31`. -/
theorem create_wager_response (db : Db) (assigned : Nat) (p : WagerInput) :
    (create_wager db assigned p).2.1 = 200 ∧
    (create_wager db assigned p).2.2.amount = p.amount ∧
    (create_wager db assigned p).2.2.closed = false ∧
    (create_wager db assigned p).2.2.id % 2 ^ 32 = (assigned : Int) % 2 ^ 32 ∧
    -2 ^ 31 ≤ (create_wager db assigned p).2.2.id ∧
    (create_wager db assigned p).2.2.id < 2 ^ 31 ∧
    ((create_wager db assigned p).2.2.id = (assigned : Int) ↔
      assigned < 2 ^ 31) := by
  have hid : (create_wager db assigned p).2.2.id = toI32 assigned := rfl
  refine ⟨rfl, rfl, rfl, ?_, ?_, ?_, ?_⟩ <;> rw [hid] <;> simp only [toI32] <;>
    split_ifs <;> omega

/-- Counterexample to claim C4 as stated: in the round-trip scenario the
stored winner row ends at 550 and the wager row at `closed = true`, but the
response reports the winner with its pre-update balance 500 and the wager
with `closed = false` — the returned lists do not carry post-update
balances and the returned wager does not reflect the final state. -/
theorem close_wager_response_stale :
    close_wager dbRound ⟨1, [10], [20]⟩ =
      some (⟨[⟨1, 10, "a", 550⟩, ⟨2, 20, "b", 450⟩], [⟨1, 50, true⟩],
             [⟨1, 1, 1⟩, ⟨2, 1, 2⟩]⟩,
            { status := 200, winners := [⟨1, 10, "a", 500⟩],
              losers := [⟨2, 20, "b", 500⟩], wager := ⟨1, 50, false⟩ }) ∧
    ([⟨1, 10, "a", 500⟩] : List User) ≠ [⟨1, 10, "a", 550⟩] ∧
    (⟨1, 50, false⟩ : Wager).closed ≠ true := by
  decide

/-- Claim C4 (amended): on successful settlement the close-wager operation
answers 200 with the winner and loser lists carrying the balances as fetched
BEFORE the updates (each listed record is the row `find?` returned at fetch
time) and with the wager record as fetched before closing, so its `closed`
field is still false; the post-update balances and the flipped flag live
only in the returned database. -/
theorem close_wager_response_pre_update (db : Db) (p : CloseWagerPayload)
    (wager : Wager) (users : List User)
    (hw : db.wagers.find? (fun w => w.id == p.wager_id) = some wager)
    (hopen : wager.closed = false)
    (hres : resolveUsers db (participantIds db p.wager_id) = some users) :
    ∃ db' : Db, close_wager db p = some (db',
      { status := 200,
        winners := (partitionUsers p.winning_user_discord_ids
          p.losing_user_discord_ids users).1,
        losers := (partitionUsers p.winning_user_discord_ids
          p.losing_user_discord_ids users).2,
        wager := wager }) ∧
      wager.closed = false ∧
      ∀ u ∈ users, db.users.find? (fun x => x.id == u.id) = some u :=
  ⟨_, close_wager_success db p wager users hw hopen hres, hopen,
    fun u hu => resolveUsers_mem db _ users u hres hu⟩

/-- Witness for the amended C4 at the round-trip scenario. -/
theorem close_wager_response_pre_update_witness :
    ∃ db' : Db, close_wager dbRound ⟨1, [10], [20]⟩ = some (db',
      { status := 200,
        winners := (partitionUsers [10] [20]
          [⟨1, 10, "a", 500⟩, ⟨2, 20, "b", 500⟩]).1,
        losers := (partitionUsers [10] [20]
          [⟨1, 10, "a", 500⟩, ⟨2, 20, "b", 500⟩]).2,
        wager := ⟨1, 50, false⟩ }) ∧
      (⟨1, 50, false⟩ : Wager).closed = false ∧
      ∀ u ∈ ([⟨1, 10, "a", 500⟩, ⟨2, 20, "b", 500⟩] : List User),
        dbRound.users.find? (fun x => x.id == u.id) = some u :=
  close_wager_response_pre_update dbRound ⟨1, [10], [20]⟩ ⟨1, 50, false⟩
    [⟨1, 10, "a", 500⟩, ⟨2, 20, "b", 500⟩] (by decide) rfl (by decide)

/-- Counterexample to claim C6 as stated: wager 1 is already closed, the
user with discord id 42 has balance 500 ≥ stake 50 and no Participation
yet, and the join succeeds, inserting a Participation for the closed
wager instead of rejecting it. -/
theorem add_user_to_wager_accepts_closed :
    add_user_to_wager ⟨[⟨5, 42, "a", 500⟩], [⟨1, 50, true⟩], []⟩ 77 1
        ⟨42, "a", 1⟩ =
      some (⟨[⟨5, 42, "a", 500⟩], [⟨1, 50, true⟩], [⟨1, 1, 5⟩]⟩, 200) := by
  decide

/-- Claim C6 (amended): the add-user-to-wager operation performs no check of
the wager's closed flag: when the resolved user holds no Participation in
the wager and has balance at least the stake, the join inserts a
Participation and answers 200 even though the wager's `closed` flag is
true — the invariant is not enforced at join time. -/
theorem add_user_to_wager_ignores_closed (db : Db) (newUserId newUWId : Int)
    (p : UserForWagerPayload) (u : User) (wager : Wager)
    (hu : db.users.find? (fun x => x.discord_id == p.discord_id) = some u)
    (hnopart : db.userWagers.find?
      (fun uw => uw.user_id == u.id && uw.wager_id == p.wager_id) = none)
    (hid : db.users.find? (fun x => x.id == u.id) = some u)
    (hw : db.wagers.find? (fun w => w.id == p.wager_id) = some wager)
    (_hclosed : wager.closed = true)
    (hbal : wager.amount ≤ u.bucks) :
    add_user_to_wager db newUserId newUWId p =
      some ({ db with userWagers :=
        db.userWagers ++ [⟨newUWId, p.wager_id, u.id⟩] }, 200) := by
  simp only [add_user_to_wager, resolveUser, hu, hnopart, Option.isSome_none,
    Bool.false_eq_true, if_false, hid, hw, if_neg (not_lt.mpr hbal)]

/-- Witness for the amended C6: joining the closed wager of the
counterexample database succeeds and stores the Participation. -/
theorem add_user_to_wager_ignores_closed_witness :
    add_user_to_wager ⟨[⟨5, 42, "a", 500⟩], [⟨1, 50, true⟩], []⟩ 77 1
        ⟨42, "a", 1⟩ =
      some (⟨[⟨5, 42, "a", 500⟩], [⟨1, 50, true⟩], [⟨1, 1, 5⟩]⟩, 200) :=
  add_user_to_wager_ignores_closed
    ⟨[⟨5, 42, "a", 500⟩], [⟨1, 50, true⟩], []⟩ 77 1 ⟨42, "a", 1⟩
    ⟨5, 42, "a", 500⟩ ⟨1, 50, true⟩ (by decide) (by decide) (by decide)
    (by decide) rfl (by decide)

/-- Claim C8: once the user is resolved, holds no Participation for the pair
and the wager exists, a join with balance strictly below the stake answers
400 and inserts no Participation (the user_wager table equals the input
one), while balance at least the stake inserts exactly the new Participation
and answers 200. -/
theorem add_user_to_wager_balance_check (db db1 : Db)
    (newUserId newUWId uid : Int) (p : UserForWagerPayload)
    (user : User) (wager : Wager)
    (hres : resolveUser db newUserId p = (db1, uid))
    (hnopart : db1.userWagers.find?
      (fun uw => uw.user_id == uid && uw.wager_id == p.wager_id) = none)
    (hid : db1.users.find? (fun x => x.id == uid) = some user)
    (hw : db1.wagers.find? (fun w => w.id == p.wager_id) = some wager) :
    db1.userWagers = db.userWagers ∧
    (user.bucks < wager.amount →
      add_user_to_wager db newUserId newUWId p = some (db1, 400)) ∧
    (wager.amount ≤ user.bucks →
      add_user_to_wager db newUserId newUWId p =
        some ({ db1 with userWagers :=
          db1.userWagers ++ [⟨newUWId, p.wager_id, uid⟩] }, 200)) := by
  refine ⟨?_, ?_, ?_⟩
  · have h := (resolveUser_tables db newUserId p).1
    rw [hres] at h
    exact h
  · intro hlt
    simp only [add_user_to_wager, hres, hnopart, Option.isSome_none,
      Bool.false_eq_true, if_false, hid, hw, if_pos hlt]
  · intro hge
    simp only [add_user_to_wager, hres, hnopart, Option.isSome_none,
      Bool.false_eq_true, if_false, hid, hw, if_neg (not_lt.mpr hge)]

/-- Witness for C8 at a user whose balance 30 is below the stake 50: the
join answers 400 and the user_wager table is unchanged. -/
theorem add_user_to_wager_balance_check_witness :
    dbJoin.userWagers = dbJoin.userWagers ∧
    ((30 : Int) < 50 →
      add_user_to_wager dbJoin 99 7 ⟨20, "b", 1⟩ = some (dbJoin, 400)) ∧
    ((50 : Int) ≤ 30 →
      add_user_to_wager dbJoin 99 7 ⟨20, "b", 1⟩ =
        some ({ dbJoin with userWagers := dbJoin.userWagers ++ [⟨7, 1, 2⟩] },
              200)) :=
  add_user_to_wager_balance_check dbJoin dbJoin 99 7 2 ⟨20, "b", 1⟩
    ⟨2, 20, "b", 30⟩ ⟨1, 50, false⟩ (by decide) (by decide) (by decide)
    (by decide)

/-- Claim C9: joining is idempotent for a user already holding a
Participation in the wager: the handler answers 200 with the database
unchanged, so the balance changes by zero and no second Participation is
created. -/
theorem add_user_to_wager_idempotent (db : Db) (newUserId newUWId : Int)
    (p : UserForWagerPayload) (u : User)
    (hu : db.users.find? (fun x => x.discord_id == p.discord_id) = some u)
    (hpart : (db.userWagers.find?
      (fun uw => uw.user_id == u.id && uw.wager_id == p.wager_id)).isSome =
      true) :
    add_user_to_wager db newUserId newUWId p = some (db, 200) := by
  simp only [add_user_to_wager, resolveUser, hu, hpart, if_true]

/-- Witness for C9: a second join of the already-joined user of `dbClosed`
answers 200 and leaves the database exactly as it was. -/
theorem add_user_to_wager_idempotent_witness :
    add_user_to_wager dbClosed 99 7 ⟨10, "a", 1⟩ = some (dbClosed, 200) :=
  add_user_to_wager_idempotent dbClosed 99 7 ⟨10, "a", 1⟩ ⟨1, 10, "a", 500⟩
    (by decide) (by decide)

/-- Claim C5: in the settlement of an open wager a participant whose discord
id appears in the winning list is classified as a winner only, even when it
also appears in the losing list; a participant whose discord id appears in
neither list is placed in neither class and every user row with its id is
left untouched by the settlement. -/
theorem close_wager_partition_rules (db : Db) (p : CloseWagerPayload)
    (wager : Wager) (users : List User) (u : User)
    (hw : db.wagers.find? (fun w => w.id == p.wager_id) = some wager)
    (hopen : wager.closed = false)
    (hres : resolveUsers db (participantIds db p.wager_id) = some users)
    (hnodup : (users.map User.id).Nodup)
    (hu : u ∈ users) :
    ∃ db' : Db, close_wager db p = some (db',
      { status := 200,
        winners := (partitionUsers p.winning_user_discord_ids
          p.losing_user_discord_ids users).1,
        losers := (partitionUsers p.winning_user_discord_ids
          p.losing_user_discord_ids users).2,
        wager := wager }) ∧
      (u.discord_id ∈ p.winning_user_discord_ids →
        u ∈ (partitionUsers p.winning_user_discord_ids
          p.losing_user_discord_ids users).1 ∧
        u ∉ (partitionUsers p.winning_user_discord_ids
          p.losing_user_discord_ids users).2) ∧
      (u.discord_id ∉ p.winning_user_discord_ids →
        u.discord_id ∉ p.losing_user_discord_ids →
        u ∉ (partitionUsers p.winning_user_discord_ids
          p.losing_user_discord_ids users).1 ∧
        u ∉ (partitionUsers p.winning_user_discord_ids
          p.losing_user_discord_ids users).2 ∧
        db'.users.find? (fun x => x.id == u.id) =
          db.users.find? (fun x => x.id == u.id) ∧
        db'.users.find? (fun x => x.id == u.id) = some u) := by
  obtain ⟨nd1, nd2, disj⟩ := partition_ids_nodup p.winning_user_discord_ids
    p.losing_user_discord_ids users hnodup
  refine ⟨_, close_wager_success db p wager users hw hopen hres, ?_, ?_⟩
  · intro hin
    have hmem := mem_partition_fst_of_mem p.winning_user_discord_ids
      p.losing_user_discord_ids users u hu hin
    refine ⟨hmem, fun hls => ?_⟩
    exact disj u.id (List.mem_map_of_mem User.id hmem)
      (List.mem_map_of_mem User.id hls)
  · intro hnw hnl
    have h1 : u ∉ (partitionUsers p.winning_user_discord_ids
        p.losing_user_discord_ids users).1 :=
      fun h => hnw (discord_of_mem_partition_fst _ _ users u h)
    have h2 : u ∉ (partitionUsers p.winning_user_discord_ids
        p.losing_user_discord_ids users).2 :=
      fun h => hnl (discord_of_mem_partition_snd _ _ users u h).1
    have hidw : u.id ∉ (partitionUsers p.winning_user_discord_ids
        p.losing_user_discord_ids users).1.map User.id := by
      intro h
      rcases List.mem_map.mp h with ⟨v, hv, hvid⟩
      have hvu : v = u := List.inj_on_of_nodup_map hnodup
        (mem_of_mem_partition_fst _ _ users v hv) hu hvid
      exact h1 (hvu ▸ hv)
    have hidl : u.id ∉ (partitionUsers p.winning_user_discord_ids
        p.losing_user_discord_ids users).2.map User.id := by
      intro h
      rcases List.mem_map.mp h with ⟨v, hv, hvid⟩
      have hvu : v = u := List.inj_on_of_nodup_map hnodup
        (mem_of_mem_partition_snd _ _ users v hv) hu hvid
      exact h2 (hvu ▸ hv)
    have hfind := resolveUsers_mem db _ users u hres hu
    have hstep := (find?_applyLosers_other
      (partitionUsers p.winning_user_discord_ids
        p.losing_user_discord_ids users).2
      (applyWinners db.users
        (partitionUsers p.winning_user_discord_ids
          p.losing_user_discord_ids users).1
        (payoutOf wager.amount
          (partitionUsers p.winning_user_discord_ids
            p.losing_user_discord_ids users).1.length
          (partitionUsers p.winning_user_discord_ids
            p.losing_user_discord_ids users).2.length))
      wager.amount u.id hidl).trans
      (find?_applyWinners_other
        (partitionUsers p.winning_user_discord_ids
          p.losing_user_discord_ids users).1
        db.users
        (payoutOf wager.amount
          (partitionUsers p.winning_user_discord_ids
            p.losing_user_discord_ids users).1.length
          (partitionUsers p.winning_user_discord_ids
            p.losing_user_discord_ids users).2.length)
        u.id hidw)
    exact ⟨h1, h2, hstep, hstep.trans hfind⟩

/-- Witness for C5 at `dbPart`: user 3 (discord id 30) is joined to the
wager but listed in neither the winning list [10, 20] nor the losing list
[10]; user 1's discord id 10 appears in both lists. The settlement leaves
user 3's row untouched. -/
theorem close_wager_partition_rules_witness :
    ∃ db' : Db, close_wager dbPart ⟨1, [10, 20], [10]⟩ = some (db',
      { status := 200,
        winners := (partitionUsers [10, 20] [10]
          [⟨1, 10, "a", 500⟩, ⟨2, 20, "b", 500⟩, ⟨3, 30, "c", 500⟩]).1,
        losers := (partitionUsers [10, 20] [10]
          [⟨1, 10, "a", 500⟩, ⟨2, 20, "b", 500⟩, ⟨3, 30, "c", 500⟩]).2,
        wager := ⟨1, 50, false⟩ }) ∧
      ((⟨3, 30, "c", 500⟩ : User).discord_id ∈ ([10, 20] : List Nat) →
        (⟨3, 30, "c", 500⟩ : User) ∈ (partitionUsers [10, 20] [10]
          [⟨1, 10, "a", 500⟩, ⟨2, 20, "b", 500⟩, ⟨3, 30, "c", 500⟩]).1 ∧
        (⟨3, 30, "c", 500⟩ : User) ∉ (partitionUsers [10, 20] [10]
          [⟨1, 10, "a", 500⟩, ⟨2, 20, "b", 500⟩, ⟨3, 30, "c", 500⟩]).2) ∧
      ((⟨3, 30, "c", 500⟩ : User).discord_id ∉ ([10, 20] : List Nat) →
        (⟨3, 30, "c", 500⟩ : User).discord_id ∉ ([10] : List Nat) →
        (⟨3, 30, "c", 500⟩ : User) ∉ (partitionUsers [10, 20] [10]
          [⟨1, 10, "a", 500⟩, ⟨2, 20, "b", 500⟩, ⟨3, 30, "c", 500⟩]).1 ∧
        (⟨3, 30, "c", 500⟩ : User) ∉ (partitionUsers [10, 20] [10]
          [⟨1, 10, "a", 500⟩, ⟨2, 20, "b", 500⟩, ⟨3, 30, "c", 500⟩]).2 ∧
        db'.users.find? (fun x => x.id == (⟨3, 30, "c", 500⟩ : User).id) =
          dbPart.users.find? (fun x => x.id == (⟨3, 30, "c", 500⟩ : User).id) ∧
        db'.users.find? (fun x => x.id == (⟨3, 30, "c", 500⟩ : User).id) =
          some ⟨3, 30, "c", 500⟩) :=
  close_wager_partition_rules dbPart ⟨1, [10, 20], [10]⟩ ⟨1, 50, false⟩
    [⟨1, 10, "a", 500⟩, ⟨2, 20, "b", 500⟩, ⟨3, 30, "c", 500⟩]
    ⟨3, 30, "c", 500⟩ (by decide) rfl (by decide) (by decide) (by decide)

/-- Claim C2: settling an open wager with stake S over participants with
pairwise distinct ids and in-range balances pays each winner exactly
floor(S * L / W) when W > 0, pays 0 when W = 0, and sets each loser's
balance to max(0, balance - S) — a decrease by min(balance, S) that never
goes negative. -/
theorem close_wager_settlement (db : Db) (p : CloseWagerPayload)
    (wager : Wager) (users ws ls : List User)
    (hw : db.wagers.find? (fun w => w.id == p.wager_id) = some wager)
    (hopen : wager.closed = false)
    (hres : resolveUsers db (participantIds db p.wager_id) = some users)
    (hpart : partitionUsers p.winning_user_discord_ids
      p.losing_user_discord_ids users = (ws, ls))
    (hnodup : (users.map User.id).Nodup)
    (hS0 : 0 ≤ wager.amount) (hS1 : wager.amount < 2 ^ 31)
    (hlen : users.length < 2 ^ 31)
    (hSL : wager.amount * (ls.length : Int) < 2 ^ 31)
    (hb : ∀ u ∈ users, 0 ≤ u.bucks ∧ u.bucks < 2 ^ 31)
    (hwin : ∀ u ∈ ws,
      u.bucks + payoutOf wager.amount ws.length ls.length < 2 ^ 31) :
    ∃ db' : Db, close_wager db p = some (db',
        { status := 200, winners := ws, losers := ls, wager := wager }) ∧
      (0 < ws.length → payoutOf wager.amount ws.length ls.length =
        wager.amount * (ls.length : Int) / (ws.length : Int)) ∧
      (ws.length = 0 → payoutOf wager.amount ws.length ls.length = 0) ∧
      (∀ u ∈ ws, db.users.find? (fun x => x.id == u.id) = some u ∧
        db'.users.find? (fun x => x.id == u.id) =
          some { u with bucks :=
            u.bucks + payoutOf wager.amount ws.length ls.length }) ∧
      (∀ u ∈ ls, db.users.find? (fun x => x.id == u.id) = some u ∧
        db'.users.find? (fun x => x.id == u.id) =
          some { u with bucks := max 0 (u.bucks - wager.amount) }) := by
  have hlens : ws.length + ls.length ≤ users.length := by
    have h := partition_length_le p.winning_user_discord_ids
      p.losing_user_discord_ids users
    rw [hpart] at h
    exact h
  have hlw : ws.length < 2 ^ 31 := by omega
  have hll : ls.length < 2 ^ 31 := by omega
  obtain ⟨nd1, nd2, disj⟩ := partition_ids_nodup p.winning_user_discord_ids
    p.losing_user_discord_ids users hnodup
  rw [hpart] at nd1 nd2 disj
  have hpay0 : 0 ≤ payoutOf wager.amount ws.length ls.length :=
    payoutOf_nonneg hS0 hlw hll hSL
  have hsucc := close_wager_success db p wager users hw hopen hres
  rw [hpart] at hsucc
  refine ⟨_, hsucc, ?_, ?_, ?_, ?_⟩
  · intro hpos
    exact payoutOf_eq_div hS0 hlw hll hSL hpos
  · intro h0
    simp [payoutOf, h0]
  · intro u hu
    have hu' : u ∈ users := mem_of_mem_partition_fst
      p.winning_user_discord_ids p.losing_user_discord_ids users u
      (by rw [hpart]; exact hu)
    have hfind := resolveUsers_mem db _ users u hres hu'
    refine ⟨hfind, ?_⟩
    have h1 := find?_applyWinners_mem ws db.users
      (payoutOf wager.amount ws.length ls.length) u nd1 hu hfind
    have h2 : u.id ∉ ls.map User.id :=
      fun h => disj u.id (List.mem_map_of_mem User.id hu) h
    have h3 := find?_applyLosers_other ls
      (applyWinners db.users ws (payoutOf wager.amount ws.length ls.length))
      wager.amount u.id h2
    have h4 : wrap32 (u.bucks + payoutOf wager.amount ws.length ls.length) =
        u.bucks + payoutOf wager.amount ws.length ls.length :=
      wrap32_eq_self (by have := (hb u hu').1; omega) (hwin u hu)
    have h5 := h3.trans h1
    rw [h4] at h5
    exact h5
  · intro u hu
    have hu' : u ∈ users := mem_of_mem_partition_snd
      p.winning_user_discord_ids p.losing_user_discord_ids users u
      (by rw [hpart]; exact hu)
    have hfind := resolveUsers_mem db _ users u hres hu'
    refine ⟨hfind, ?_⟩
    have h2 : u.id ∉ ws.map User.id :=
      fun h => disj u.id h (List.mem_map_of_mem User.id hu)
    have h0 := find?_applyWinners_other ws db.users
      (payoutOf wager.amount ws.length ls.length) u.id h2
    have h1 := find?_applyLosers_mem ls
      (applyWinners db.users ws (payoutOf wager.amount ws.length ls.length))
      wager.amount u nd2 hu (h0.trans hfind)
    have hwr : wrap32 (u.bucks - wager.amount) = u.bucks - wager.amount :=
      wrap32_eq_self (by have := (hb u hu').1; omega)
        (by have := (hb u hu').2; omega)
    rw [hwr, ite_lt_zero_eq_max] at h1
    exact h1

/-- Witness for C2 at the round-trip scenario: stake 50, one winner and one
loser, both starting at 500; the payout is floor(50 * 1 / 1) = 50, the
winner's row ends at 550 and the loser's at max(0, 500 - 50) = 450. -/
theorem close_wager_settlement_witness :
    ∃ db' : Db, close_wager dbRound ⟨1, [10], [20]⟩ = some (db',
        { status := 200, winners := [⟨1, 10, "a", 500⟩],
          losers := [⟨2, 20, "b", 500⟩], wager := ⟨1, 50, false⟩ }) ∧
      ((0 : Nat) < 1 → payoutOf 50 1 1 = 50 * ((1 : Nat) : Int) / ((1 : Nat) : Int)) ∧
      ((1 : Nat) = 0 → payoutOf 50 1 1 = 0) ∧
      (∀ u ∈ ([⟨1, 10, "a", 500⟩] : List User),
        dbRound.users.find? (fun x => x.id == u.id) = some u ∧
        db'.users.find? (fun x => x.id == u.id) =
          some { u with bucks := u.bucks + payoutOf 50 1 1 }) ∧
      (∀ u ∈ ([⟨2, 20, "b", 500⟩] : List User),
        dbRound.users.find? (fun x => x.id == u.id) = some u ∧
        db'.users.find? (fun x => x.id == u.id) =
          some { u with bucks := max 0 (u.bucks - 50) }) :=
  close_wager_settlement dbRound ⟨1, [10], [20]⟩ ⟨1, 50, false⟩
    [⟨1, 10, "a", 500⟩, ⟨2, 20, "b", 500⟩] [⟨1, 10, "a", 500⟩]
    [⟨2, 20, "b", 500⟩] (by decide) rfl (by decide) (by decide) (by decide)
    (by decide) (by decide) (by decide) (by decide) (by decide) (by decide)
